import Mathlib

/-!
# PhotoSelectionServer — shallow embedding and verification

A shallow embedding of the session/photo lifecycle core of
`src/server.js` (an Express HTTP service with an in-memory database
`dbData` persisted to a JSON file), together with theorems settling the
frozen claims about it.

Modelling conventions:

* The JS object `dbData.sessions` (string keys → session records) is an
  association list `List (String × Session)` in key-insertion order
  (UUID keys are not array indices, so JS preserves insertion order);
  `dbData.sessions[k] = v` replaces in place or appends (`setSession`),
  `delete dbData.sessions[k]` removes the key (`removeSession`).
* `status` is the literal string stored by the code
  (`"draft" | "ready" | "submitted"`).
* `createdAt` is an ISO timestamp string in the code, compared via
  `new Date(...)` subtraction; it is modelled as a natural number with
  the same order.
* Request-body / query-string fields that may be absent are
  `Option String`; JS falsiness of such a value (`undefined` or `""`)
  is `falsyStr`.
* Each mutating handler is a pure function from the server state
  (in-memory `dbData` plus the persisted `db.json` document) and its
  inputs to the new state and an HTTP-level result
  (`Except ApiError response`).  `saveData` (serialize `dbData` to
  `db.json`) is `save`, copying the in-memory document to disk; its
  own write failures are only logged by the code and are outside this
  model.
* `fs.unlink` outcomes are an oracle `String → UnlinkResult` passed to
  the deletion handlers; the code wraps every unlink in
  `try/catch`/`.catch` that only logs, which the embedding mirrors by
  discarding the oracle's answer.
* UUIDs (`uuidv4()`) and the current time are nondeterministic inputs,
  passed as explicit arguments (`freshPhotoId`, `freshSessionId`, `now`).
-/

namespace PhotoSel

/-- Outcome of an `fs.unlink` call on one file. -/
inductive UnlinkResult where
  | ok
  | enoent
  | otherError (msg : String)
deriving DecidableEq, Repr

/-- A photo record inside a session (`dbData.sessions[sid].photos[i]`). -/
structure Photo where
  id : String
  url : String
  filename : String
  selected : Bool
deriving DecidableEq, Repr

/-- A session record (`dbData.sessions[sid]`). -/
structure Session where
  customerName : String
  photos : List Photo
  status : String
  createdAt : Nat
deriving DecidableEq, Repr

/-- A portfolio item (`dbData.portfolioItems[i]`). -/
structure PortfolioItem where
  id : String
  title : String
  description : String
  category : String
  url : String
  filename : String
  createdAt : Nat
deriving DecidableEq, Repr

/-- The whole database document (`dbData`). -/
structure Db where
  sessions : List (String × Session)
  portfolioItems : List PortfolioItem
deriving DecidableEq, Repr

/-- Server state: the in-memory document and the persisted `db.json`. -/
structure St where
  db : Db
  disk : Db
deriving DecidableEq, Repr

/-- `saveData()`: overwrite `db.json` with the in-memory document. -/
def save (st : St) : St := { st with disk := st.db }

/-- Client-visible errors, tagged with the code's HTTP status. -/
inductive ApiError where
  | notFound (message : String)
  | badRequest (message : String)
  | forbidden (message : String)
  | internal (message : String)
deriving DecidableEq, Repr

/-- HTTP status code carried by each error branch of the code. -/
def ApiError.statusCode : ApiError → Nat
  | .notFound _ => 404
  | .badRequest _ => 400
  | .forbidden _ => 403
  | .internal _ => 500

/-- JS falsiness of an optional string value (`!x` for `x` a request
field that is either a string or `undefined`). -/
def falsyStr : Option String → Bool
  | none => true
  | some s => s = ""

/-- `dbData.sessions[sid]` as a read. -/
def lookupSession : List (String × Session) → String → Option Session
  | [], _ => none
  | (k, v) :: rest, sid => if k = sid then some v else lookupSession rest sid

/-- `dbData.sessions[sid] = s`: replace in place if the key exists
(keeping its position), else append the new key at the end. -/
def setSession : List (String × Session) → String → Session → List (String × Session)
  | [], sid, s => [(sid, s)]
  | (k, v) :: rest, sid, s =>
    if k = sid then (k, s) :: rest else (k, v) :: setSession rest sid s

/-- `delete dbData.sessions[sid]` (keys are unique in a JS object, so
removing the first occurrence is exact). -/
def removeSession : List (String × Session) → String → List (String × Session)
  | [], _ => []
  | (k, v) :: rest, sid => if k = sid then rest else (k, v) :: removeSession rest sid

/-- `createNewSession(sessionId, customerName)` (server.js:106-113). -/
def createNewSession (sessions : List (String × Session)) (sessionId customerName : String)
    (now : Nat) : List (String × Session) :=
  setSession sessions sessionId
    { customerName := customerName, photos := [], status := "draft", createdAt := now }

/-- The sentinel customer name `'未知客户'`. -/
def unknownCustomer : String := "未知客户"

/-- `BASE_URL` in debug mode (server.js:19). -/
def BASE_URL : String := "http://localhost:3000"

/-- Response of `POST /upload`. -/
structure UploadResult where
  photoId : String
  photoUrl : String
  sessionId : String
deriving DecidableEq, Repr

/-- `photos.push(photo)` on the session stored at `sid` (no-op when the
key is absent, which is unreachable at the call site; keys of a JS
object are unique, so updating every occurrence of `sid` is exact). -/
def pushPhoto : List (String × Session) → String → Photo → List (String × Session)
  | [], _, _ => []
  | (k, v) :: rest, sid, photo =>
    if k = sid then (k, { v with photos := v.photos ++ [photo] }) :: pushPhoto rest sid photo
    else (k, v) :: pushPhoto rest sid photo

/-- `POST /upload` (server.js:126-164).  `file` is the multer result
(`some filename` when a file arrived), `bodySessionId` and
`bodyCustomerName` the optional body fields, `freshPhotoId` and
`freshSessionId` the values `uuidv4()` would return, `now` the current
time. -/
def upload (st : St) (file : Option String) (bodySessionId bodyCustomerName : Option String)
    (freshPhotoId freshSessionId : String) (now : Nat) :
    St × Except ApiError UploadResult :=
  match file with
  | none => (st, .error (.badRequest "没有接收到文件"))
  | some filename =>
    let photoId := freshPhotoId
    -- `const customerName = req.body.customerName || '未知客户';`
    let customerName := if falsyStr bodyCustomerName then unknownCustomer
                        else bodyCustomerName.getD ""
    -- `let currentSessionId = req.body.sessionId; if (!currentSessionId) ...`
    let step : String × List (String × Session) :=
      if falsyStr bodySessionId then
        (freshSessionId, createNewSession st.db.sessions freshSessionId customerName now)
      else
        let sid := bodySessionId.getD ""
        match lookupSession st.db.sessions sid with
        | none => (sid, createNewSession st.db.sessions sid customerName now)
        | some s =>
          -- `if (customerName && sessions[sid].customerName === '未知客户')`
          -- (`customerName` is always truthy after the `||` default)
          if s.customerName = unknownCustomer then
            (sid, setSession st.db.sessions sid { s with customerName := customerName })
          else (sid, st.db.sessions)
    let sid := step.1
    let photoUrl := BASE_URL ++ "/uploads/" ++ filename
    let photo : Photo := { id := photoId, url := photoUrl, filename := filename,
                           selected := false }
    let sessions2 := pushPhoto step.2 sid photo
    (save { st with db := { st.db with sessions := sessions2 } },
     .ok { photoId := photoId, photoUrl := photoUrl, sessionId := sid })

/-- `photos.splice(photos.findIndex(p => p.id === pid), 1)`: drop the
first photo whose id matches. -/
def removeFirstPhoto : List Photo → String → List Photo
  | [], _ => []
  | p :: rest, pid => if p.id = pid then rest else p :: removeFirstPhoto rest pid

/-- `DELETE /photo/:sessionId/:photoId` (server.js:170-207).  The unlink
outcome is caught and only logged, so it is discarded here; when the
splice empties the photo list the whole session record is deleted. -/
def removePhoto (st : St) (unlink : String → UnlinkResult) (sessionId photoId : String) :
    St × Except ApiError Unit :=
  match lookupSession st.db.sessions sessionId with
  | none => (st, .error (.notFound "会话不存在"))
  | some s =>
    match s.photos.find? (fun p => p.id = photoId) with
    | none => (st, .error (.notFound "照片不存在于该会话中"))
    | some photoToDelete =>
      let remaining := removeFirstPhoto s.photos photoId
      let sessions' :=
        if remaining.length = 0 then removeSession st.db.sessions sessionId
        else setSession st.db.sessions sessionId { s with photos := remaining }
      let _ := unlink photoToDelete.filename
      (save { st with db := { st.db with sessions := sessions' } }, .ok ())

/-- `DELETE /session/:sessionId` (server.js:215-247).  Every photo's
file is unlinked with a per-file `.catch` that only logs, then the
record is removed and the document saved. -/
def deleteSession (st : St) (unlink : String → UnlinkResult) (sessionId : String) :
    St × Except ApiError Unit :=
  match lookupSession st.db.sessions sessionId with
  | none => (st, .error (.notFound "会话不存在"))
  | some s =>
    let _ := s.photos.map fun p => unlink p.filename
    (save { st with db := { st.db with sessions := removeSession st.db.sessions sessionId } },
     .ok ())

/-- `POST /finishSession` (server.js:254-268).  `sessionId` comes from
the JSON body, so it may be absent; `!sessionId` also treats `""` as
absent.  Note the code never inspects the current status. -/
def finishSession (st : St) (sessionId : Option String) : St × Except ApiError Unit :=
  if falsyStr sessionId then (st, .error (.notFound "会话不存在"))
  else
    let sid := sessionId.getD ""
    match lookupSession st.db.sessions sid with
    | none => (st, .error (.notFound "会话不存在"))
    | some s =>
      if s.photos.length = 0 then
        (st, .error (.badRequest "会话中没有照片，无法完成"))
      else
        (save { st with db :=
          { st.db with sessions := setSession st.db.sessions sid { s with status := "ready" } } },
         .ok ())

/-- `POST /submitSelection` (server.js:349-367).  `selectedPhotoIds` is
an arbitrary JSON value; `some ids` models an array of strings, `none`
any non-array value (the `Array.isArray` check fails). -/
def submitSelection (st : St) (sessionId : Option String)
    (selectedPhotoIds : Option (List String)) : St × Except ApiError Unit :=
  if falsyStr sessionId then (st, .error (.notFound "选片码无效或会话不存在"))
  else
    let sid := sessionId.getD ""
    match lookupSession st.db.sessions sid with
    | none => (st, .error (.notFound "选片码无效或会话不存在"))
    | some s =>
      match selectedPhotoIds with
      | none => (st, .error (.badRequest "selectedPhotoIds 必须是数组"))
      | some ids =>
        let s' := { s with
          photos := s.photos.map fun p => { p with selected := ids.contains p.id },
          status := "submitted" }
        (save { st with db := { st.db with sessions := setSession st.db.sessions sid s' } },
         .ok ())

/-- `POST /generateQRCode` (server.js:373-400).  `qrOk` models whether
`qrcode.toFile` succeeds (failure is the 500 branch). -/
def generateQRCode (db : Db) (sessionId page : Option String) (qrOk : Bool) :
    Except ApiError String :=
  if falsyStr sessionId || falsyStr page then
    .error (.badRequest "sessionId 和 page 不能为空")
  else
    let sid := sessionId.getD ""
    match lookupSession db.sessions sid with
    | none => .error (.badRequest "会话不存在或会话中没有照片，无法生成二维码")
    | some s =>
      if s.photos.length = 0 then
        .error (.badRequest "会话不存在或会话中没有照片，无法生成二维码")
      else if qrOk then
        .ok (BASE_URL ++ "/qrcodes/" ++ ("qrcode-" ++ sid ++ ".png"))
      else
        .error (.internal "生成二维码失败")

/-- One photo as returned by `GET /photos`: only `{id, url, selected}`;
the record type has no filename field. -/
structure ClientPhoto where
  id : String
  url : String
  selected : Bool
deriving DecidableEq, Repr

/-- `GET /photos` (server.js:319-343).  `clientType` is the
`x-client-type` header value, `none` when the header is missing. -/
def listPhotos (db : Db) (sessionId : Option String) (clientType : Option String) :
    Except ApiError (List ClientPhoto) :=
  if falsyStr sessionId then .error (.notFound "选片码无效或会话不存在")
  else
    let sid := sessionId.getD ""
    match lookupSession db.sessions sid with
    | none => .error (.notFound "选片码无效或会话不存在")
    | some s =>
      let isPhotographer := clientType = some "photographer"
      if s.status = "draft" && !isPhotographer then
        .error (.forbidden "该选片码尚未准备好，请联系摄影师")
      else
        .ok (s.photos.map fun p => { id := p.id, url := p.url, selected := p.selected })

/-! ## `GET /sessions` (server.js:274-312)

The query parameters `status`, `search`, `page`, `limit` are optional
strings.  The code destructures with defaults `page = 1, limit = 10`
(applied only when the parameter is absent) and then runs the numbers
through `parseInt`; the slice indices are computed with JS number
arithmetic, where a `NaN` from `parseInt` propagates and
`Array.prototype.slice` converts `NaN` bounds to `0`. -/

/-- One element of the `sessions` array in the response. -/
structure SessionSummary where
  id : String
  customerName : String
  status : String
  photoCount : Nat
  createdAt : Nat
deriving DecidableEq, Repr

/-- `Object.keys(dbData.sessions).map(...)` (server.js:277-283). -/
def sessionSummaries (db : Db) : List SessionSummary :=
  db.sessions.map fun kv =>
    { id := kv.1, customerName := kv.2.customerName, status := kv.2.status,
      photoCount := kv.2.photos.length, createdAt := kv.2.createdAt }

/-- `if (status && status !== 'all') filter(...)` — the filter is
skipped when `status` is absent, the empty string (falsy) or `'all'`. -/
def applyStatusFilter (status : Option String) (l : List SessionSummary) :
    List SessionSummary :=
  match status with
  | none => l
  | some st =>
    if st = "" || st = "all" then l else l.filter fun s => s.status = st

/-- Does `needle` start `hay`?  (`List` form of JS `startsWith`.) -/
def listStartsWith [DecidableEq α] : List α → List α → Bool
  | _, [] => true
  | [], _ :: _ => false
  | a :: as, b :: bs => a = b && listStartsWith as bs

/-- Does `hay` contain `needle` as a contiguous run?  (JS
`String.prototype.includes` over the character list.) -/
def listContainsSub [DecidableEq α] (hay needle : List α) : Bool :=
  match hay with
  | [] => listStartsWith ([] : List α) needle
  | _ :: t => listStartsWith hay needle || listContainsSub t needle

/-- `hay.includes(needle)` on strings. -/
def strIncludes (hay needle : String) : Bool :=
  listContainsSub hay.data needle.data

/-- The search predicate of server.js:291-294: case-insensitive
substring match over id OR customerName. -/
def matchesSearch (q : String) (s : SessionSummary) : Bool :=
  strIncludes s.id.toLower q.toLower || strIncludes s.customerName.toLower q.toLower

/-- `if (search) filter(...)` — skipped when `search` is absent or the
empty string (falsy). -/
def applySearchFilter (search : Option String) (l : List SessionSummary) :
    List SessionSummary :=
  match search with
  | none => l
  | some q => if q = "" then l else l.filter (matchesSearch q)

/-- The sort comparator `(a, b) => new Date(b.createdAt) - new Date(a.createdAt)`
keeps `a` before `b` exactly when `b.createdAt ≤ a.createdAt`; JS
`Array.prototype.sort` is stable, so the result is the stable
descending sort by `createdAt`. -/
def byCreatedAtDesc (a b : SessionSummary) : Prop := b.createdAt ≤ a.createdAt

instance : DecidableRel byCreatedAtDesc :=
  fun a b => inferInstanceAs (Decidable (b.createdAt ≤ a.createdAt))

instance : IsTotal SessionSummary byCreatedAtDesc :=
  ⟨fun a b => Nat.le_total b.createdAt a.createdAt⟩

instance : IsTrans SessionSummary byCreatedAtDesc :=
  ⟨fun _ _ _ hab hbc => Nat.le_trans hbc hab⟩

/-- `filteredSessions.sort(...)` as a stable sort. -/
def sortByCreatedAtDesc (l : List SessionSummary) : List SessionSummary :=
  List.insertionSort byCreatedAtDesc l

/-- JS `parseInt(s)` (radix 10 on the inputs of interest): skip
whitespace, optional sign, then leading decimal digits; `none` models
`NaN` (no digits).  Hexadecimal `0x` prefixes are not modelled. -/
def parseIntJs (s : String) : Option Int :=
  let cs := s.data.dropWhile fun c => c = ' ' || c = '\t' || c = '\n' || c = '\r'
  let signed : Int × List Char :=
    match cs with
    | '-' :: r => (-1, r)
    | '+' :: r => (1, r)
    | r => (1, r)
  let ds := signed.2.takeWhile Char.isDigit
  if ds.isEmpty then none
  else some (signed.1 * Int.ofNat (ds.foldl (fun acc c => acc * 10 + (c.toNat - '0'.toNat)) 0))

/-- `parseInt(page)` where `page` destructures to the number `1` when
the query parameter is absent. -/
def parsedPage (page : Option String) : Option Int :=
  match page with
  | none => some 1
  | some s => parseIntJs s

/-- `parseInt(limit)` with the absent-parameter default `10`. -/
def parsedLimit (limit : Option String) : Option Int :=
  match limit with
  | none => some 10
  | some s => parseIntJs s

/-- ECMAScript `ToIntegerOrInfinity` + relative-index clamping used by
`Array.prototype.slice`: `NaN` (`none`) becomes `0`, a negative index
counts from the end, and the result is clamped to `[0, len]`. -/
def sliceIdx (len : Nat) : Option Int → Nat
  | none => 0
  | some i => if i < 0 then ((len : Int) + i).toNat else min i.toNat len

/-- `l.slice(s, e)` with JS number bounds (`none` = `NaN`). -/
def jsSlice (l : List α) (s e : Option Int) : List α :=
  (l.take (sliceIdx l.length e)).drop (sliceIdx l.length s)

/-- Response of `GET /sessions`; `page`/`limit` echo the `parseInt`
results (`none` = `NaN`, serialized as `null`). -/
structure SessionsResponse where
  sessions : List SessionSummary
  total : Nat
  page : Option Int
  limit : Option Int
deriving DecidableEq, Repr

/-- `GET /sessions` (server.js:274-312). -/
def listSessions (db : Db) (status search page limit : Option String) : SessionsResponse :=
  let filtered := applySearchFilter search (applyStatusFilter status (sessionSummaries db))
  let sorted := sortByCreatedAtDesc filtered
  let p := parsedPage page
  let l := parsedLimit limit
  -- `const startIndex = (parseInt(page) - 1) * parseInt(limit);`
  let startIndex : Option Int :=
    match p, l with
    | some pv, some lv => some ((pv - 1) * lv)
    | _, _ => none
  -- `const endIndex = startIndex + parseInt(limit);`
  let endIndex : Option Int :=
    match startIndex, l with
    | some sv, some lv => some (sv + lv)
    | _, _ => none
  { sessions := jsSlice sorted startIndex endIndex,
    total := filtered.length, page := p, limit := l }

/-- `DELETE /portfolio/:id` (server.js:471-497): splice out the first
item with the given id; the unlink is caught and only logged. -/
def removeFirstItem : List PortfolioItem → String → List PortfolioItem
  | [], _ => []
  | it :: rest, id => if it.id = id then rest else it :: removeFirstItem rest id

/-- `DELETE /portfolio/:id` (server.js:471-497). -/
def deletePortfolioItem (st : St) (unlink : String → UnlinkResult) (id : String) :
    St × Except ApiError Unit :=
  match st.db.portfolioItems.find? (fun it => it.id = id) with
  | none => (st, .error (.notFound "作品不存在"))
  | some itemToDelete =>
    let remaining := removeFirstItem st.db.portfolioItems id
    let _ := unlink itemToDelete.filename
    (save { st with db := { st.db with portfolioItems := remaining } }, .ok ())

/-! ## Association-list laws for the session map -/

theorem lookupSession_setSession_self (l : List (String × Session)) (sid : String)
    (s : Session) : lookupSession (setSession l sid s) sid = some s := by
  induction l with
  | nil => simp [setSession, lookupSession]
  | cons kv rest ih =>
    obtain ⟨k, v⟩ := kv
    by_cases h : k = sid
    · simp [setSession, lookupSession, h]
    · simp [setSession, lookupSession, h, ih]

theorem lookupSession_setSession_ne (l : List (String × Session)) (sid k : String)
    (s : Session) (h : k ≠ sid) :
    lookupSession (setSession l sid s) k = lookupSession l k := by
  induction l with
  | nil => simp [setSession, lookupSession, Ne.symm h]
  | cons kv rest ih =>
    obtain ⟨k', v⟩ := kv
    by_cases hk : k' = sid
    · subst hk
      simp [setSession, lookupSession, Ne.symm h]
    · simp [setSession, lookupSession, hk, ih]

theorem lookupSession_mem {l : List (String × Session)} {k : String} {v : Session}
    (h : lookupSession l k = some v) : (k, v) ∈ l := by
  induction l with
  | nil => simp [lookupSession] at h
  | cons kv rest ih =>
    obtain ⟨k', v'⟩ := kv
    by_cases hk : k' = k
    · subst hk
      simp only [lookupSession, if_pos rfl] at h
      cases h
      exact List.mem_cons_self _ _
    · simp only [lookupSession, if_neg hk] at h
      exact List.mem_cons_of_mem _ (ih h)

theorem lookupSession_eq_none_iff (l : List (String × Session)) (k : String) :
    lookupSession l k = none ↔ ∀ kv ∈ l, kv.1 ≠ k := by
  induction l with
  | nil => simp [lookupSession]
  | cons kv rest ih =>
    obtain ⟨k', v'⟩ := kv
    by_cases hk : k' = k
    · subst hk; simp [lookupSession]
    · simp [lookupSession, hk, ih]

theorem removeSession_sublist (l : List (String × Session)) (sid : String) :
    List.Sublist (removeSession l sid) l := by
  induction l with
  | nil => simp [removeSession]
  | cons kv rest ih =>
    obtain ⟨k, v⟩ := kv
    by_cases h : k = sid
    · rw [removeSession, if_pos h]
      exact List.sublist_cons_self (k, v) rest
    · simpa [removeSession, h] using ih.cons₂ (k, v)

theorem lookupSession_removeSession_self (l : List (String × Session)) (sid : String)
    (hnd : (l.map Prod.fst).Nodup) : lookupSession (removeSession l sid) sid = none := by
  induction l with
  | nil => simp [removeSession, lookupSession]
  | cons kv rest ih =>
    obtain ⟨k, v⟩ := kv
    simp only [List.map_cons, List.nodup_cons] at hnd
    by_cases h : k = sid
    · subst h
      simp only [removeSession, if_pos rfl]
      rw [lookupSession_eq_none_iff]
      intro kv' hkv' hfst
      exact hnd.1 (hfst ▸ List.mem_map_of_mem Prod.fst hkv')
    · simp [removeSession, lookupSession, h, ih hnd.2]

theorem lookupSession_removeSession_ne (l : List (String × Session)) (sid k : String)
    (h : k ≠ sid) : lookupSession (removeSession l sid) k = lookupSession l k := by
  induction l with
  | nil => simp [removeSession]
  | cons kv rest ih =>
    obtain ⟨k', v⟩ := kv
    by_cases hk : k' = sid
    · subst hk
      simp [removeSession, lookupSession, Ne.symm h]
    · simp [removeSession, lookupSession, hk, ih]

theorem lookupSession_pushPhoto_self (l : List (String × Session)) (sid : String)
    (photo : Photo) :
    lookupSession (pushPhoto l sid photo) sid =
      (lookupSession l sid).map fun s => { s with photos := s.photos ++ [photo] } := by
  induction l with
  | nil => simp [pushPhoto, lookupSession]
  | cons kv rest ih =>
    obtain ⟨k, v⟩ := kv
    by_cases h : k = sid
    · subst h
      simp [pushPhoto, lookupSession]
    · simp [pushPhoto, lookupSession, h, ih]

theorem lookupSession_pushPhoto_ne (l : List (String × Session)) (sid k : String)
    (photo : Photo) (h : k ≠ sid) :
    lookupSession (pushPhoto l sid photo) k = lookupSession l k := by
  induction l with
  | nil => simp [pushPhoto, lookupSession]
  | cons kv rest ih =>
    obtain ⟨k', v⟩ := kv
    by_cases hk : k' = sid
    · subst hk
      simp [pushPhoto, lookupSession, Ne.symm h, ih]
    · by_cases hk' : k' = k
      · subst hk'
        simp [pushPhoto, lookupSession, hk]
      · simp [pushPhoto, lookupSession, hk, hk', ih]

theorem removeFirstPhoto_of_single (p : Photo) (pid : String) (h : p.id = pid) :
    removeFirstPhoto [p] pid = [] := by
  simp [removeFirstPhoto, h]

theorem setSession_setSession (l : List (String × Session)) (sid : String) (a b : Session) :
    setSession (setSession l sid a) sid b = setSession l sid b := by
  induction l with
  | nil => simp [setSession]
  | cons kv rest ih =>
    obtain ⟨k, v⟩ := kv
    by_cases h : k = sid
    · simp [setSession, h]
    · simp [setSession, h, ih]

/-- The session record written back by `submitSelection`'s success
branch: every photo's `selected` flag becomes membership of its id in
`ids`, and the status becomes `submitted`. -/
def applySelection (s : Session) (ids : List String) : Session :=
  { s with photos := s.photos.map fun p => { p with selected := ids.contains p.id },
           status := "submitted" }

/-- The session record written back by `finishSession`'s success
branch. -/
def markReady (s : Session) : Session := { s with status := "ready" }

/-- Replace the session stored under `sid` and persist — the shape of
every success branch that rewrites a single session. -/
def writeSession (st : St) (sid : String) (s : Session) : St :=
  save { st with db := { st.db with sessions := setSession st.db.sessions sid s } }

/-- Characterization of the success branch of `submitSelection`. -/
theorem submitSelection_ok (st : St) (sid : String) (s : Session) (hsid : sid ≠ "")
    (hs : lookupSession st.db.sessions sid = some s) (ids : List String) :
    submitSelection st (some sid) (some ids) =
      (writeSession st sid (applySelection s ids), .ok ()) := by
  simp [submitSelection, falsyStr, hsid, hs, writeSession, applySelection]

/-- Characterization of the success branch of `finishSession`. -/
theorem finishSession_ok (st : St) (sid : String) (s : Session) (hsid : sid ≠ "")
    (hs : lookupSession st.db.sessions sid = some s) (hne : s.photos ≠ []) :
    finishSession st (some sid) = (writeSession st sid (markReady s), .ok ()) := by
  have hlen : s.photos.length ≠ 0 := by
    simpa [List.length_eq_zero] using hne
  simp [finishSession, falsyStr, hsid, hs, hlen, writeSession, markReady]

theorem lookupSession_writeSession_self (st : St) (sid : String) (s : Session) :
    lookupSession (writeSession st sid s).db.sessions sid = some s := by
  simp [writeSession, save, lookupSession_setSession_self]

theorem applySelection_applySelection (s : Session) (ids : List String) :
    applySelection (applySelection s ids) ids = applySelection s ids := by
  simp only [applySelection, List.map_map]
  rfl

/-! ## Example states used as concrete inputs for witnesses and
counterexamples -/

/-- An unselected photo. -/
def wPhoto1 : Photo :=
  { id := "p1", url := BASE_URL ++ "/uploads/a.jpg", filename := "a.jpg", selected := false }

/-- A selected photo. -/
def wPhoto2 : Photo :=
  { id := "p2", url := BASE_URL ++ "/uploads/b.jpg", filename := "b.jpg", selected := true }

/-- A ready session with two photos. -/
def wSession : Session :=
  { customerName := "Alice", photos := [wPhoto1, wPhoto2], status := "ready", createdAt := 5 }

/-- A database with the one ready session `"sess"`. -/
def wDb : Db := { sessions := [("sess", wSession)], portfolioItems := [] }

/-- Server state for `wDb`, already persisted. -/
def wSt : St := { db := wDb, disk := wDb }

/-- A submitted session holding one selected photo. -/
def wSubmittedSession : Session :=
  { customerName := "Bob", photos := [wPhoto2], status := "submitted", createdAt := 7 }

/-- A database with the one submitted session `"subm"`. -/
def wDbSubmitted : Db := { sessions := [("subm", wSubmittedSession)], portfolioItems := [] }

/-- Server state for `wDbSubmitted`, already persisted. -/
def wStSubmitted : St := { db := wDbSubmitted, disk := wDbSubmitted }

/-! ## Claims -/

/-- **C1, counterexample.**  The claim says a submitted session can
never move to a different status, in particular that `finishSession`
must not change it to `ready`.  The code's `POST /finishSession`
handler never inspects the current status: on the concrete submitted
session `"subm"` (one photo) it answers success and the stored status
becomes `"ready"`. -/
theorem finishSession_on_submitted_cex :
    (lookupSession wStSubmitted.db.sessions "subm").map Session.status = some "submitted"
    ∧ (finishSession wStSubmitted (some "subm")).2 = .ok ()
    ∧ (lookupSession (finishSession wStSubmitted (some "subm")).1.db.sessions "subm").map
        Session.status = some "ready" :=
  ⟨rfl, rfl, rfl⟩

/-- **C1 (amended).**  Resubmission via `submitSelection` leaves a
submitted session submitted (submitted→submitted), and neither
`submitSelection` nor `finishSession` ever returns it to `draft`;
however `finishSession` does not check the current status: on a
submitted session with at least one photo it succeeds and sets the
status to `ready`. -/
theorem submitted_session_transitions (st : St) (sid : String) (s : Session)
    (hsid : sid ≠ "") (hs : lookupSession st.db.sessions sid = some s)
    (_hsub : s.status = "submitted") :
    (∀ ids : List String,
      (submitSelection st (some sid) (some ids)).2 = .ok ()
      ∧ (lookupSession (submitSelection st (some sid) (some ids)).1.db.sessions sid).map
          Session.status = some "submitted")
    ∧ (s.photos ≠ [] →
        (finishSession st (some sid)).2 = .ok ()
        ∧ (lookupSession (finishSession st (some sid)).1.db.sessions sid).map
            Session.status = some "ready") := by
  constructor
  · intro ids
    rw [submitSelection_ok st sid s hsid hs ids]
    exact ⟨rfl, by rw [lookupSession_writeSession_self]; rfl⟩
  · intro hne
    rw [finishSession_ok st sid s hsid hs hne]
    exact ⟨rfl, by rw [lookupSession_writeSession_self]; rfl⟩

/-- **C1 witness.** -/
theorem submitted_session_transitions_witness :
    (("subm" : String) ≠ ""
      ∧ lookupSession wStSubmitted.db.sessions "subm" = some wSubmittedSession
      ∧ wSubmittedSession.status = "submitted")
    ∧ ((submitSelection wStSubmitted (some "subm") (some ["p2"])).2 = .ok ()
      ∧ (lookupSession (submitSelection wStSubmitted (some "subm")
          (some ["p2"])).1.db.sessions "subm").map Session.status = some "submitted") :=
  ⟨⟨by decide, rfl, rfl⟩,
    (submitted_session_transitions wStSubmitted "subm" wSubmittedSession
      (by decide) rfl rfl).1 ["p2"]⟩

/-- **C2.**  For an existing session, `submitSelection` with an array
of ids overwrites every photo's `selected` with membership of its id in
the array, sets the status to `submitted`, leaves every other session
untouched and persists the document; with a non-array argument it
fails with 400 BadRequest and both the in-memory and persisted state
are unchanged. -/
theorem submitSelection_spec (st : St) (sid : String) (s : Session) (hsid : sid ≠ "")
    (hs : lookupSession st.db.sessions sid = some s) :
    (submitSelection st (some sid) none =
      (st, .error (.badRequest "selectedPhotoIds 必须是数组")))
    ∧ (∀ ids : List String,
        (submitSelection st (some sid) (some ids)).2 = .ok ()
        ∧ lookupSession (submitSelection st (some sid) (some ids)).1.db.sessions sid =
            some (applySelection s ids)
        ∧ (applySelection s ids).status = "submitted"
        ∧ (∀ p' ∈ (applySelection s ids).photos, p'.selected = true ↔ p'.id ∈ ids)
        ∧ (∀ k, k ≠ sid →
            lookupSession (submitSelection st (some sid) (some ids)).1.db.sessions k =
              lookupSession st.db.sessions k)
        ∧ (submitSelection st (some sid) (some ids)).1.disk =
            (submitSelection st (some sid) (some ids)).1.db) := by
  constructor
  · simp [submitSelection, falsyStr, hsid, hs]
  · intro ids
    rw [submitSelection_ok st sid s hsid hs ids]
    refine ⟨rfl, lookupSession_writeSession_self .., rfl, ?_, ?_, rfl⟩
    · intro p' hp'
      simp only [applySelection, List.mem_map] at hp'
      obtain ⟨p, _, rfl⟩ := hp'
      simp [List.contains, List.elem_iff]
    · intro k hk
      simp [writeSession, save, lookupSession_setSession_ne _ _ _ _ hk]

/-- **C2 witness.** -/
theorem submitSelection_spec_witness :
    (("sess" : String) ≠ "" ∧ lookupSession wSt.db.sessions "sess" = some wSession)
    ∧ submitSelection wSt (some "sess") none =
        (wSt, .error (.badRequest "selectedPhotoIds 必须是数组")) :=
  ⟨⟨by decide, rfl⟩, (submitSelection_spec wSt "sess" wSession (by decide) rfl).1⟩

/-- **C3.**  `submitSelection` is idempotent: rerunning it with the
same id set returns the identical state and response, and the status is
`submitted` after the first call (hence after both). -/
theorem submitSelection_idem (st : St) (sid : String) (s : Session) (hsid : sid ≠ "")
    (hs : lookupSession st.db.sessions sid = some s) (ids : List String) :
    submitSelection (submitSelection st (some sid) (some ids)).1 (some sid) (some ids) =
      submitSelection st (some sid) (some ids)
    ∧ (lookupSession (submitSelection st (some sid) (some ids)).1.db.sessions sid).map
        Session.status = some "submitted" := by
  have h1 := submitSelection_ok st sid s hsid hs ids
  have hlookup1 : lookupSession (submitSelection st (some sid) (some ids)).1.db.sessions sid =
      some (applySelection s ids) := by
    rw [h1]
    exact lookupSession_writeSession_self ..
  have h2 := submitSelection_ok (submitSelection st (some sid) (some ids)).1 sid
    (applySelection s ids) hsid hlookup1 ids
  constructor
  · rw [h2, applySelection_applySelection, h1]
    simp only [writeSession, save]
    rw [setSession_setSession]
  · rw [hlookup1]
    rfl

/-- **C3 witness.** -/
theorem submitSelection_idem_witness :
    (("sess" : String) ≠ "" ∧ lookupSession wSt.db.sessions "sess" = some wSession)
    ∧ submitSelection (submitSelection wSt (some "sess") (some ["p1"])).1 (some "sess")
        (some ["p1"]) = submitSelection wSt (some "sess") (some ["p1"]) :=
  ⟨⟨by decide, rfl⟩, (submitSelection_idem wSt "sess" wSession (by decide) rfl ["p1"]).1⟩

/-- **C7.**  `finishSession` answers 404 NotFound exactly when the body
names no existing session (`!sessionId` treats a missing or empty body
field as naming none, and no reachable state stores a session under the
empty id, which is the `hwf` hypothesis); it answers the invalid-state
400 exactly when the session exists with an empty photo sequence; and
on a session with at least one photo it rewrites only that session's
status to `ready`, keeps its photos, customer name and creation time,
and persists the document. -/
theorem finishSession_spec (st : St) (sidOpt : Option String)
    (hwf : lookupSession st.db.sessions "" = none) :
    ((finishSession st sidOpt).2 = .error (.notFound "会话不存在")
      ↔ lookupSession st.db.sessions (sidOpt.getD "") = none)
    ∧ ((finishSession st sidOpt).2 = .error (.badRequest "会话中没有照片，无法完成")
      ↔ ∃ s, lookupSession st.db.sessions (sidOpt.getD "") = some s ∧ s.photos = [])
    ∧ (∀ sid s, sidOpt = some sid → lookupSession st.db.sessions sid = some s →
        s.photos ≠ [] →
        finishSession st sidOpt = (writeSession st sid (markReady s), .ok ())
        ∧ (markReady s).photos = s.photos
        ∧ (markReady s).customerName = s.customerName
        ∧ (markReady s).createdAt = s.createdAt
        ∧ (markReady s).status = "ready"
        ∧ (∀ k, k ≠ sid → lookupSession (writeSession st sid (markReady s)).db.sessions k =
            lookupSession st.db.sessions k)
        ∧ (writeSession st sid (markReady s)).disk = (writeSession st sid (markReady s)).db) := by
  refine ⟨?_, ?_, ?_⟩
  · match sidOpt with
    | none => simp [finishSession, falsyStr, hwf]
    | some sid =>
      by_cases hsid : sid = ""
      · subst hsid
        simp [finishSession, falsyStr, hwf]
      · cases hl : lookupSession st.db.sessions sid with
        | none => simp [finishSession, falsyStr, hsid, hl]
        | some s =>
          by_cases he : s.photos.length = 0
          · simp [finishSession, falsyStr, hsid, hl, he]
          · simp [finishSession, falsyStr, hsid, hl, he]
  · match sidOpt with
    | none => simp [finishSession, falsyStr, hwf]
    | some sid =>
      by_cases hsid : sid = ""
      · subst hsid
        simp [finishSession, falsyStr, hwf]
      · cases hl : lookupSession st.db.sessions sid with
        | none => simp [finishSession, falsyStr, hsid, hl]
        | some s =>
          by_cases he : s.photos.length = 0
          · simp only [Option.getD_some]
            rw [List.length_eq_zero] at he
            simp [finishSession, falsyStr, hsid, hl, he]
          · have hne : s.photos ≠ [] := by
              simpa [List.length_eq_zero] using he
            simp [finishSession, falsyStr, hsid, hl, he, hne]
  · rintro sid s rfl hl hne
    have hsid : sid ≠ "" := by
      intro h
      rw [h, hwf] at hl
      exact Option.noConfusion hl
    refine ⟨finishSession_ok st sid s hsid hl hne, rfl, rfl, rfl, rfl, ?_, rfl⟩
    intro k hk
    simp [writeSession, save, lookupSession_setSession_ne _ _ _ _ hk]

/-- **C7 witness.** -/
theorem finishSession_spec_witness :
    lookupSession wSt.db.sessions "" = none
    ∧ ((finishSession wSt (some "sess")).2 = .error (.notFound "会话不存在")
        ↔ lookupSession wSt.db.sessions "sess" = none) :=
  ⟨rfl, (finishSession_spec wSt (some "sess") rfl).1⟩

/-- Apply a renaming to every stored photo filename (used to state that
`GET /photos` never exposes the filename: the response cannot depend on
it). -/
def mapFilenames (f : String → String) (db : Db) : Db :=
  { db with sessions := db.sessions.map fun kv =>
      (kv.1, { kv.2 with photos := kv.2.photos.map fun p => { p with filename := f p.filename } }) }

theorem lookupSession_map_filename_update (f : String → String)
    (l : List (String × Session)) (sid : String) :
    lookupSession (l.map fun kv =>
        (kv.1, { kv.2 with photos := kv.2.photos.map fun p => { p with filename := f p.filename } }))
      sid =
      (lookupSession l sid).map fun s =>
        { s with photos := s.photos.map fun p => { p with filename := f p.filename } } := by
  induction l with
  | nil => simp [lookupSession]
  | cons kv rest ih =>
    obtain ⟨k, v⟩ := kv
    by_cases h : k = sid
    · simp [lookupSession, h]
    · simp [lookupSession, h, ih]

theorem lookupSession_mapFilenames (f : String → String) (db : Db) (sid : String) :
    lookupSession (mapFilenames f db).sessions sid =
      (lookupSession db.sessions sid).map fun s =>
        { s with photos := s.photos.map fun p => { p with filename := f p.filename } } :=
  lookupSession_map_filename_update f db.sessions sid

theorem listPhotos_found (db : Db) (sid : String) (role : Option String) (s : Session)
    (hsid : sid ≠ "") (hl : lookupSession db.sessions sid = some s) :
    listPhotos db (some sid) role =
      if s.status = "draft" ∧ ¬role = some "photographer" then
        .error (.forbidden "该选片码尚未准备好，请联系摄影师")
      else .ok (s.photos.map fun p => { id := p.id, url := p.url, selected := p.selected }) := by
  simp [listPhotos, falsyStr, hsid, hl]

/-- **C6.**  `GET /photos` answers 404 NotFound exactly when the query
names no existing session (a missing or empty `sessionId` names none;
`hwf` says no session is stored under the empty id); otherwise it
answers 403 Forbidden exactly when the session is a draft and the
`x-client-type` header is not exactly `photographer`; otherwise it
returns the photos in stored order projected to `{id, url, selected}`,
and renaming every stored filename cannot change any response. -/
theorem listPhotos_spec (db : Db) (sidOpt : Option String) (role : Option String)
    (hwf : lookupSession db.sessions "" = none) :
    (listPhotos db sidOpt role = .error (.notFound "选片码无效或会话不存在")
      ↔ lookupSession db.sessions (sidOpt.getD "") = none)
    ∧ (listPhotos db sidOpt role = .error (.forbidden "该选片码尚未准备好，请联系摄影师")
      ↔ ∃ s, lookupSession db.sessions (sidOpt.getD "") = some s
          ∧ s.status = "draft" ∧ role ≠ some "photographer")
    ∧ (∀ sid s, sidOpt = some sid → lookupSession db.sessions sid = some s →
        (s.status = "draft" → role = some "photographer") →
        listPhotos db sidOpt role =
          .ok (s.photos.map fun p => { id := p.id, url := p.url, selected := p.selected }))
    ∧ (∀ f : String → String, listPhotos (mapFilenames f db) sidOpt role =
        listPhotos db sidOpt role) := by
  refine ⟨?_, ?_, ?_, ?_⟩
  · match sidOpt with
    | none => simp [listPhotos, falsyStr, hwf]
    | some sid =>
      by_cases hsid : sid = ""
      · subst hsid
        simp [listPhotos, falsyStr, hwf]
      · cases hl : lookupSession db.sessions sid with
        | none => simp [listPhotos, falsyStr, hsid, hl]
        | some s =>
          by_cases hd : s.status = "draft"
          · by_cases hrole : role = some "photographer"
            · simp [listPhotos, falsyStr, hsid, hl, hd, hrole]
            · simp [listPhotos, falsyStr, hsid, hl, hd, hrole]
          · simp [listPhotos, falsyStr, hsid, hl, hd]
  · match sidOpt with
    | none =>
      simp only [listPhotos, falsyStr]
      simp [Option.getD_none, hwf]
    | some sid =>
      by_cases hsid : sid = ""
      · subst hsid
        simp [listPhotos, falsyStr, hwf]
      · cases hl : lookupSession db.sessions sid with
        | none => simp [listPhotos, falsyStr, hsid, hl]
        | some s =>
          by_cases hd : s.status = "draft"
          · by_cases hrole : role = some "photographer"
            · simp [listPhotos, falsyStr, hsid, hl, hd, hrole]
            · simp [listPhotos, falsyStr, hsid, hl, hd, hrole]
          · simp [listPhotos, falsyStr, hsid, hl, hd]
  · rintro sid s rfl hl hdr
    have hsid : sid ≠ "" := by
      intro h
      rw [h, hwf] at hl
      exact Option.noConfusion hl
    by_cases hd : s.status = "draft"
    · simp [listPhotos, falsyStr, hsid, hl, hd, hdr hd]
    · simp [listPhotos, falsyStr, hsid, hl, hd]
  · intro f
    match sidOpt with
    | none => simp [listPhotos, falsyStr]
    | some sid =>
      by_cases hsid : sid = ""
      · subst hsid
        simp [listPhotos, falsyStr]
      · have hmf := lookupSession_mapFilenames f db sid
        cases hl : lookupSession db.sessions sid with
        | none =>
          have hl' : lookupSession (mapFilenames f db).sessions sid = none := by
            rw [hmf, hl]; rfl
          simp [listPhotos, falsyStr, hsid, hl, hl']
        | some s =>
          have hl' : lookupSession (mapFilenames f db).sessions sid = some
              { s with photos := s.photos.map fun p => { p with filename := f p.filename } } := by
            rw [hmf, hl]; rfl
          rw [listPhotos_found db sid role s hsid hl,
            listPhotos_found (mapFilenames f db) sid role _ hsid hl']
          by_cases hc : s.status = "draft" ∧ ¬role = some "photographer"
          · rw [if_pos hc, if_pos hc]
          · rw [if_neg hc, if_neg hc]
            simp [List.map_map]

/-- **C6 witness.** -/
theorem listPhotos_spec_witness :
    lookupSession wDb.sessions "" = none
    ∧ (listPhotos wDb (some "sess") none = .error (.notFound "选片码无效或会话不存在")
        ↔ lookupSession wDb.sessions "sess" = none) :=
  ⟨rfl, (listPhotos_spec wDb (some "sess") none rfl).1⟩

/-- **C9.**  `POST /generateQRCode` with a non-empty `sessionId` and
`page` answers 400 BadRequest — with the very same error value as for
an existing-but-empty session — when the session does not exist, and no
input at this endpoint can produce a 404. -/
theorem generateQRCode_absent_is_badRequest (db : Db) (sid page : String) (qrOk : Bool)
    (hsid : sid ≠ "") (hpage : page ≠ "") :
    (lookupSession db.sessions sid = none →
      generateQRCode db (some sid) (some page) qrOk =
        .error (.badRequest "会话不存在或会话中没有照片，无法生成二维码"))
    ∧ (∀ s, lookupSession db.sessions sid = some s → s.photos = [] →
        generateQRCode db (some sid) (some page) qrOk =
          .error (.badRequest "会话不存在或会话中没有照片，无法生成二维码"))
    ∧ (∀ e, generateQRCode db (some sid) (some page) qrOk = .error e →
        e.statusCode ≠ 404) := by
  refine ⟨?_, ?_, ?_⟩
  · intro hl
    simp [generateQRCode, falsyStr, hsid, hpage, hl]
  · intro s hl hempty
    simp [generateQRCode, falsyStr, hsid, hpage, hl, hempty]
  · intro e he
    simp only [generateQRCode] at he
    split at he
    · simp only [Except.error.injEq] at he
      subst he
      simp [ApiError.statusCode]
    · split at he
      · simp only [Except.error.injEq] at he
        subst he
        simp [ApiError.statusCode]
      · split at he
        · simp only [Except.error.injEq] at he
          subst he
          simp [ApiError.statusCode]
        · split at he
          · exact absurd he (by simp)
          · simp only [Except.error.injEq] at he
            subst he
            simp [ApiError.statusCode]

/-- **C9 witness.** -/
theorem generateQRCode_absent_is_badRequest_witness :
    (("nope" : String) ≠ "" ∧ ("pages/select" : String) ≠ ""
      ∧ lookupSession wDb.sessions "nope" = none)
    ∧ generateQRCode wDb (some "nope") (some "pages/select") true =
        .error (.badRequest "会话不存在或会话中没有照片，无法生成二维码") :=
  ⟨⟨by decide, by decide, rfl⟩,
    (generateQRCode_absent_is_badRequest wDb "nope" "pages/select" true
      (by decide) (by decide)).1 rfl⟩

/-- **C10.**  Every deletion endpoint treats the `fs.unlink` of the
backing file as best-effort: the entire result (response and both the
in-memory and persisted state) is independent of the unlink oracle, and
whenever the target record exists the operation still succeeds, removes
the record, and persists — no unlink outcome (missing file or any other
error) can fail or roll back the record deletion. -/
theorem deletions_swallow_unlink_failures (st : St) :
    (∀ (u1 u2 : String → UnlinkResult) (sessionId photoId : String),
      removePhoto st u1 sessionId photoId = removePhoto st u2 sessionId photoId)
    ∧ (∀ (u1 u2 : String → UnlinkResult) (sessionId : String),
        deleteSession st u1 sessionId = deleteSession st u2 sessionId)
    ∧ (∀ (u1 u2 : String → UnlinkResult) (id : String),
        deletePortfolioItem st u1 id = deletePortfolioItem st u2 id)
    ∧ (∀ (u : String → UnlinkResult) (sessionId : String) (s : Session),
        lookupSession st.db.sessions sessionId = some s →
        (deleteSession st u sessionId).2 = .ok ()
        ∧ (deleteSession st u sessionId).1.db.sessions =
            removeSession st.db.sessions sessionId
        ∧ (deleteSession st u sessionId).1.disk = (deleteSession st u sessionId).1.db)
    ∧ (∀ (u : String → UnlinkResult) (sessionId photoId : String) (s : Session),
        lookupSession st.db.sessions sessionId = some s →
        (∃ p ∈ s.photos, p.id = photoId) →
        (removePhoto st u sessionId photoId).2 = .ok ()
        ∧ (removePhoto st u sessionId photoId).1.disk =
            (removePhoto st u sessionId photoId).1.db)
    ∧ (∀ (u : String → UnlinkResult) (id : String),
        (∃ it ∈ st.db.portfolioItems, it.id = id) →
        (deletePortfolioItem st u id).2 = .ok ()
        ∧ (deletePortfolioItem st u id).1.db.portfolioItems =
            removeFirstItem st.db.portfolioItems id
        ∧ (deletePortfolioItem st u id).1.disk = (deletePortfolioItem st u id).1.db) := by
  refine ⟨fun u1 u2 sessionId photoId => rfl, fun u1 u2 sessionId => rfl,
    fun u1 u2 id => rfl, ?_, ?_, ?_⟩
  · intro u sessionId s hl
    refine ⟨?_, ?_, ?_⟩ <;> simp [deleteSession, hl, save]
  · intro u sessionId photoId s hl hex
    have hfind : ∃ q, s.photos.find? (fun p => p.id = photoId) = some q := by
      rw [← Option.isSome_iff_exists, List.find?_isSome]
      obtain ⟨p, hp, hpid⟩ := hex
      exact ⟨p, hp, by simp [hpid]⟩
    obtain ⟨q, hq⟩ := hfind
    refine ⟨?_, ?_⟩ <;> simp [removePhoto, hl, hq, save]
  · intro u id hex
    have hfind : ∃ q, st.db.portfolioItems.find? (fun it => it.id = id) = some q := by
      rw [← Option.isSome_iff_exists, List.find?_isSome]
      obtain ⟨it, hit, hid⟩ := hex
      exact ⟨it, hit, by simp [hid]⟩
    obtain ⟨q, hq⟩ := hfind
    refine ⟨?_, ?_, ?_⟩ <;> simp [deletePortfolioItem, hq, save]

/-- **C10 witness.** -/
theorem deletions_swallow_unlink_failures_witness :
    lookupSession wSt.db.sessions "sess" = some wSession
    ∧ ((deleteSession wSt (fun _ => .otherError "EACCES") "sess").2 = .ok ()
      ∧ (deleteSession wSt (fun _ => .otherError "EACCES") "sess").1.db.sessions =
          removeSession wSt.db.sessions "sess"
      ∧ (deleteSession wSt (fun _ => .otherError "EACCES") "sess").1.disk =
          (deleteSession wSt (fun _ => .otherError "EACCES") "sess").1.db) :=
  ⟨rfl, (deletions_swallow_unlink_failures wSt).2.2.2.1
    (fun _ => .otherError "EACCES") "sess" wSession rfl⟩

/-! ## Upload lemmas -/

/-- The effective customer name after `req.body.customerName || '未知客户'`. -/
def uploadCustomerName (bodyCustomerName : Option String) : String :=
  if falsyStr bodyCustomerName then unknownCustomer else bodyCustomerName.getD ""

/-- The photo record appended by `POST /upload`. -/
def uploadPhotoRecord (freshPhotoId filename : String) : Photo :=
  { id := freshPhotoId, url := BASE_URL ++ "/uploads/" ++ filename,
    filename := filename, selected := false }

theorem pushPhoto_of_absent (l : List (String × Session)) (sid : String) (photo : Photo)
    (h : lookupSession l sid = none) : pushPhoto l sid photo = l := by
  rw [lookupSession_eq_none_iff] at h
  induction l with
  | nil => rfl
  | cons kv rest ih =>
    obtain ⟨k, v⟩ := kv
    have hk : k ≠ sid := h (k, v) (List.mem_cons_self _ _)
    rw [pushPhoto, if_neg hk, ih fun kv hkv => h kv (List.mem_cons_of_mem _ hkv)]

theorem pushPhoto_setSession_absent (l : List (String × Session)) (sid : String)
    (s : Session) (photo : Photo) (h : lookupSession l sid = none) :
    pushPhoto (setSession l sid s) sid photo =
      setSession l sid { s with photos := s.photos ++ [photo] } := by
  rw [lookupSession_eq_none_iff] at h
  induction l with
  | nil => simp [setSession, pushPhoto]
  | cons kv rest ih =>
    obtain ⟨k, v⟩ := kv
    have hk : k ≠ sid := h (k, v) (List.mem_cons_self _ _)
    rw [setSession, if_neg hk, pushPhoto, if_neg hk, setSession, if_neg hk,
      ih fun kv hkv => h kv (List.mem_cons_of_mem _ hkv)]

theorem pushPhoto_eq_setSession (l : List (String × Session)) (sid : String) (s : Session)
    (photo : Photo) (hnd : (l.map Prod.fst).Nodup)
    (h : lookupSession l sid = some s) :
    pushPhoto l sid photo = setSession l sid { s with photos := s.photos ++ [photo] } := by
  induction l with
  | nil => simp [lookupSession] at h
  | cons kv rest ih =>
    obtain ⟨k, v⟩ := kv
    simp only [List.map_cons, List.nodup_cons] at hnd
    by_cases hk : k = sid
    · subst hk
      simp only [lookupSession, if_pos rfl] at h
      cases h
      rw [pushPhoto, if_pos rfl, setSession, if_pos rfl]
      have habs : lookupSession rest k = none := by
        rw [lookupSession_eq_none_iff]
        intro kv hkv hfst
        exact hnd.1 (hfst ▸ List.mem_map_of_mem Prod.fst hkv)
      rw [pushPhoto_of_absent rest k photo habs]
    · simp only [lookupSession, if_neg hk] at h
      rw [pushPhoto, if_neg hk, setSession, if_neg hk, ih hnd.2 h]

theorem keys_setSession_of_found (l : List (String × Session)) (sid : String)
    (s s' : Session) (h : lookupSession l sid = some s) :
    (setSession l sid s').map Prod.fst = l.map Prod.fst := by
  induction l with
  | nil => simp [lookupSession] at h
  | cons kv rest ih =>
    obtain ⟨k, v⟩ := kv
    by_cases hk : k = sid
    · subst hk
      rw [setSession, if_pos rfl]
      simp
    · simp only [lookupSession, if_neg hk] at h
      rw [setSession, if_neg hk]
      simp [ih h]

/-- **C8.**  `POST /upload` with a file: when the body carries no
usable session id (absent or empty), a brand-new draft session is
created under the generated id with exactly the uploaded photo,
unselected; when the body names a non-existing session, the same
happens under the supplied id; when the session exists, the photo is
appended and the stored customer name is overwritten exactly when it
still equals the sentinel `'未知客户'`; in every case the response
carries the photo id, its public URL and the session id, and the
document is persisted (`writeSession` ends in `save`). -/
theorem upload_spec (st : St) (filename : String)
    (bodySessionId bodyCustomerName : Option String)
    (freshPhotoId freshSessionId : String) (now : Nat)
    (hnd : (st.db.sessions.map Prod.fst).Nodup) :
    (upload st none bodySessionId bodyCustomerName freshPhotoId freshSessionId now =
      (st, .error (.badRequest "没有接收到文件")))
    ∧ (falsyStr bodySessionId = true →
        lookupSession st.db.sessions freshSessionId = none →
        upload st (some filename) bodySessionId bodyCustomerName freshPhotoId freshSessionId
            now =
          (writeSession st freshSessionId
            { customerName := uploadCustomerName bodyCustomerName,
              photos := [uploadPhotoRecord freshPhotoId filename],
              status := "draft", createdAt := now },
           .ok { photoId := freshPhotoId,
                 photoUrl := BASE_URL ++ "/uploads/" ++ filename,
                 sessionId := freshSessionId }))
    ∧ (∀ sid, bodySessionId = some sid → sid ≠ "" →
        lookupSession st.db.sessions sid = none →
        upload st (some filename) bodySessionId bodyCustomerName freshPhotoId freshSessionId
            now =
          (writeSession st sid
            { customerName := uploadCustomerName bodyCustomerName,
              photos := [uploadPhotoRecord freshPhotoId filename],
              status := "draft", createdAt := now },
           .ok { photoId := freshPhotoId,
                 photoUrl := BASE_URL ++ "/uploads/" ++ filename,
                 sessionId := sid }))
    ∧ (∀ sid s, bodySessionId = some sid → sid ≠ "" →
        lookupSession st.db.sessions sid = some s →
        upload st (some filename) bodySessionId bodyCustomerName freshPhotoId freshSessionId
            now =
          (writeSession st sid
            { customerName := if s.customerName = unknownCustomer then
                uploadCustomerName bodyCustomerName else s.customerName,
              photos := s.photos ++ [uploadPhotoRecord freshPhotoId filename],
              status := s.status, createdAt := s.createdAt },
           .ok { photoId := freshPhotoId,
                 photoUrl := BASE_URL ++ "/uploads/" ++ filename,
                 sessionId := sid })) := by
  refine ⟨rfl, ?_, ?_, ?_⟩
  · intro hfal hfresh
    simp only [upload, hfal, if_true, createNewSession]
    rw [pushPhoto_setSession_absent _ _ _ _ hfresh]
    rfl
  · rintro sid rfl hsid hl
    have hfal : falsyStr (some sid) = false := by simp [falsyStr, hsid]
    simp only [upload, hfal, Bool.false_eq_true, if_false, Option.getD_some, hl,
      createNewSession]
    rw [pushPhoto_setSession_absent _ _ _ _ hl]
    rfl
  · rintro sid s rfl hsid hl
    have hfal : falsyStr (some sid) = false := by simp [falsyStr, hsid]
    by_cases hcn : s.customerName = unknownCustomer
    · simp only [upload, hfal, Bool.false_eq_true, if_false, Option.getD_some, hl]
      rw [if_pos hcn, if_pos hcn]
      dsimp only
      have hu : (if falsyStr bodyCustomerName = true then unknownCustomer
          else bodyCustomerName.getD "") = uploadCustomerName bodyCustomerName := rfl
      rw [hu]
      have hnd' : ((setSession st.db.sessions sid
          { s with customerName := uploadCustomerName bodyCustomerName }).map
            Prod.fst).Nodup := by
        rw [keys_setSession_of_found _ _ s _ hl]; exact hnd
      rw [pushPhoto_eq_setSession _ sid _ _ hnd' (lookupSession_setSession_self _ _ _),
        setSession_setSession]
      rfl
    · simp only [upload, hfal, Bool.false_eq_true, if_false, Option.getD_some, hl]
      rw [if_neg hcn, if_neg hcn]
      dsimp only
      rw [pushPhoto_eq_setSession _ _ _ _ hnd hl]
      rfl

/-- **C8 witness.** -/
theorem upload_spec_witness :
    ((List.map Prod.fst wSt.db.sessions).Nodup
      ∧ falsyStr (none : Option String) = true
      ∧ lookupSession wSt.db.sessions "fresh" = none)
    ∧ upload wSt (some "c.jpg") none (some "Carol") "pid9" "fresh" 42 =
        (writeSession wSt "fresh"
          { customerName := uploadCustomerName (some "Carol"),
            photos := [uploadPhotoRecord "pid9" "c.jpg"],
            status := "draft", createdAt := 42 },
         .ok { photoId := "pid9", photoUrl := BASE_URL ++ "/uploads/" ++ "c.jpg",
               sessionId := "fresh" }) :=
  ⟨⟨by decide, rfl, rfl⟩,
    (upload_spec wSt "c.jpg" none (some "Carol") "pid9" "fresh" 42
      (by decide)).2.1 rfl rfl⟩

/-! ## The no-empty-session invariant (C4) -/

/-- Every retained session has at least one photo. -/
def SessionsNonEmpty (db : Db) : Prop := ∀ kv ∈ db.sessions, kv.2.photos ≠ []

theorem mem_setSession {l : List (String × Session)} {sid : String} {s : Session}
    {kv : String × Session} (h : kv ∈ setSession l sid s) : kv ∈ l ∨ kv = (sid, s) := by
  induction l with
  | nil => simpa [setSession] using h
  | cons kv' rest ih =>
    obtain ⟨k, v⟩ := kv'
    by_cases hk : k = sid
    · subst hk
      rw [setSession, if_pos rfl] at h
      rcases List.mem_cons.mp h with rfl | h

      · exact Or.inr rfl
      · exact Or.inl (List.mem_cons_of_mem _ h)
    · rw [setSession, if_neg hk] at h
      rcases List.mem_cons.mp h with rfl | h
      · exact Or.inl (List.mem_cons_self _ _)
      · rcases ih h with h | h
        · exact Or.inl (List.mem_cons_of_mem _ h)
        · exact Or.inr h

theorem sessionsNonEmpty_pushPhoto (l : List (String × Session)) (sid : String)
    (photo : Photo) (h : ∀ kv ∈ l, kv.1 ≠ sid → kv.2.photos ≠ []) :
    ∀ kv ∈ pushPhoto l sid photo, kv.2.photos ≠ [] := by
  induction l with
  | nil => simp [pushPhoto]
  | cons kv' rest ih =>
    obtain ⟨k, v⟩ := kv'
    intro kv hkv
    by_cases hk : k = sid
    · rw [pushPhoto, if_pos hk] at hkv
      rcases List.mem_cons.mp hkv with rfl | hkv
      · simp
      · exact ih (fun kv hm => h kv (List.mem_cons_of_mem _ hm)) kv hkv
    · rw [pushPhoto, if_neg hk] at hkv
      rcases List.mem_cons.mp hkv with rfl | hkv
      · exact h (k, v) (List.mem_cons_self _ _) hk
      · exact ih (fun kv hm => h kv (List.mem_cons_of_mem _ hm)) kv hkv

theorem mem_of_mem_applyStatusFilter {status : Option String} {l : List SessionSummary}
    {x : SessionSummary} (h : x ∈ applyStatusFilter status l) : x ∈ l := by
  cases status with
  | none => exact h
  | some st =>
    simp only [applyStatusFilter] at h
    split at h
    · exact h
    · exact List.mem_of_mem_filter h

theorem mem_of_mem_applySearchFilter {search : Option String} {l : List SessionSummary}
    {x : SessionSummary} (h : x ∈ applySearchFilter search l) : x ∈ l := by
  cases search with
  | none => exact h
  | some q =>
    simp only [applySearchFilter] at h
    split at h
    · exact h
    · exact List.mem_of_mem_filter h

theorem mem_of_mem_jsSlice {l : List α} {a b : Option Int} {x : α}
    (h : x ∈ jsSlice l a b) : x ∈ l :=
  List.mem_of_mem_take (List.mem_of_mem_drop h)

theorem mem_of_mem_listSessions {db : Db} {status search page limit : Option String}
    {x : SessionSummary} (h : x ∈ (listSessions db status search page limit).sessions) :
    x ∈ sessionSummaries db := by
  simp only [listSessions] at h
  have h1 := mem_of_mem_jsSlice h
  rw [sortByCreatedAtDesc, List.mem_insertionSort] at h1
  exact mem_of_mem_applyStatusFilter (mem_of_mem_applySearchFilter h1)

/-- **C4.**  Removing the last remaining photo of a session deletes the
whole session record: the call succeeds, the session id no longer
resolves, and no later `GET /sessions` page (any filter, search or
pagination) can list that id.  Moreover every mutating operation
preserves the invariant that each retained session has at least one
photo. -/
theorem no_zero_photo_session_retained (st : St) :
    (∀ (u : String → UnlinkResult) (sid photoId : String) (s : Session) (p : Photo),
      (st.db.sessions.map Prod.fst).Nodup →
      lookupSession st.db.sessions sid = some s →
      s.photos = [p] → p.id = photoId →
      (removePhoto st u sid photoId).2 = .ok ()
      ∧ lookupSession (removePhoto st u sid photoId).1.db.sessions sid = none
      ∧ (∀ status search page limit,
          ∀ x ∈ (listSessions (removePhoto st u sid photoId).1.db
              status search page limit).sessions, x.id ≠ sid))
    ∧ (SessionsNonEmpty st.db →
        (∀ (u : String → UnlinkResult) (sid photoId : String),
          SessionsNonEmpty (removePhoto st u sid photoId).1.db)
        ∧ (∀ (u : String → UnlinkResult) (sid : String),
            SessionsNonEmpty (deleteSession st u sid).1.db)
        ∧ (∀ sidOpt, SessionsNonEmpty (finishSession st sidOpt).1.db)
        ∧ (∀ sidOpt ids, SessionsNonEmpty (submitSelection st sidOpt ids).1.db)
        ∧ (∀ file bodySessionId bodyCustomerName freshPhotoId freshSessionId now,
            SessionsNonEmpty
              (upload st file bodySessionId bodyCustomerName freshPhotoId freshSessionId
                now).1.db)) := by
  constructor
  · intro u sid photoId s p hnd hl hph hpid
    have hfind : s.photos.find? (fun q => q.id = photoId) = some p := by
      rw [hph]
      simp [List.find?, hpid]
    have hrem : removeFirstPhoto s.photos photoId = [] := by
      rw [hph]
      exact removeFirstPhoto_of_single p photoId hpid
    have hrp : removePhoto st u sid photoId =
        (save { st with db :=
          { st.db with sessions := removeSession st.db.sessions sid } }, .ok ()) := by
      simp [removePhoto, hl, hfind, hrem]
    refine ⟨by rw [hrp], ?_, ?_⟩
    · rw [hrp]
      exact lookupSession_removeSession_self _ _ hnd
    · intro status search page limit x hx
      have hmem := mem_of_mem_listSessions hx
      simp only [sessionSummaries, List.mem_map] at hmem
      obtain ⟨kv, hkv, rfl⟩ := hmem
      rw [hrp] at hkv
      have hnone : lookupSession (removeSession st.db.sessions sid) sid = none :=
        lookupSession_removeSession_self _ _ hnd
      rw [lookupSession_eq_none_iff] at hnone
      exact hnone kv hkv
  · intro hinv
    refine ⟨?_, ?_, ?_, ?_, ?_⟩
    · intro u sid photoId
      cases hl : lookupSession st.db.sessions sid with
      | none => simpa [removePhoto, hl] using hinv
      | some s =>
        cases hfind : s.photos.find? (fun q => q.id = photoId) with
        | none => simpa [removePhoto, hl, hfind] using hinv
        | some q =>
          by_cases hrem : (removeFirstPhoto s.photos photoId).length = 0
          · simp only [removePhoto, hl, hfind, hrem, if_pos rfl, save]
            intro kv hkv
            exact hinv kv ((removeSession_sublist _ _).subset hkv)
          · simp only [removePhoto, hl, hfind, if_neg hrem, save]
            intro kv hkv
            rcases mem_setSession hkv with h | rfl
            · exact hinv kv h
            · simpa [List.length_eq_zero] using hrem
    · intro u sid
      cases hl : lookupSession st.db.sessions sid with
      | none => simpa [deleteSession, hl] using hinv
      | some s =>
        simp only [deleteSession, hl, save]
        intro kv hkv
        exact hinv kv ((removeSession_sublist _ _).subset hkv)
    · intro sidOpt
      by_cases hfal : falsyStr sidOpt = true
      · simpa [finishSession, hfal] using hinv
      · cases hl : lookupSession st.db.sessions (sidOpt.getD "") with
        | none => simpa [finishSession, hfal, hl] using hinv
        | some s =>
          by_cases hlen : s.photos.length = 0
          · simpa [finishSession, hfal, hl, hlen] using hinv
          · simp only [finishSession, hfal, Bool.false_eq_true, if_false, hl, hlen, save]
            intro kv hkv
            rcases mem_setSession hkv with h | rfl
            · exact hinv kv h
            · exact hinv (sidOpt.getD "", s) (lookupSession_mem hl)
    · intro sidOpt ids
      by_cases hfal : falsyStr sidOpt = true
      · simpa [submitSelection, hfal] using hinv
      · cases hl : lookupSession st.db.sessions (sidOpt.getD "") with
        | none => simpa [submitSelection, hfal, hl] using hinv
        | some s =>
          cases ids with
          | none => simpa [submitSelection, hfal, hl] using hinv
          | some idList =>
            simp only [submitSelection, hfal, Bool.false_eq_true, if_false, hl, save]
            intro kv hkv
            rcases mem_setSession hkv with h | rfl
            · exact hinv kv h
            · have := hinv _ (lookupSession_mem hl)
              simpa [List.map_eq_nil_iff] using this
    · intro file bodySessionId bodyCustomerName freshPhotoId freshSessionId now
      cases file with
      | none => simpa [upload] using hinv
      | some filename =>
        by_cases hfal : falsyStr bodySessionId = true
        · simp only [upload, hfal, if_true, save]
          refine sessionsNonEmpty_pushPhoto _ _ _ ?_
          intro kv hkv hne
          rcases mem_setSession (s := _) hkv with h | rfl
          · exact hinv kv h
          · exact absurd rfl hne
        · rw [Bool.not_eq_true] at hfal
          cases hl : lookupSession st.db.sessions (bodySessionId.getD "") with
          | none =>
            simp only [upload, hfal, Bool.false_eq_true, if_false, hl, save]
            refine sessionsNonEmpty_pushPhoto _ _ _ ?_
            intro kv hkv hne
            rcases mem_setSession (s := _) hkv with h | rfl
            · exact hinv kv h
            · exact absurd rfl hne
          | some s =>
            by_cases hcn : s.customerName = unknownCustomer
            · simp only [upload, hfal, Bool.false_eq_true, if_false, hl, if_pos hcn, save]
              refine sessionsNonEmpty_pushPhoto _ _ _ ?_
              intro kv hkv hne
              rcases mem_setSession (s := _) hkv with h | rfl
              · exact hinv kv h
              · exact absurd rfl hne
            · simp only [upload, hfal, Bool.false_eq_true, if_false, hl, if_neg hcn, save]
              refine sessionsNonEmpty_pushPhoto _ _ _ ?_
              intro kv hkv hne
              exact hinv kv hkv

/-- **C4 witness.** -/
theorem no_zero_photo_session_retained_witness :
    ((List.map Prod.fst wDbSubmitted.sessions).Nodup
      ∧ lookupSession wStSubmitted.db.sessions "subm" = some wSubmittedSession
      ∧ wSubmittedSession.photos = [wPhoto2] ∧ wPhoto2.id = "p2")
    ∧ ((removePhoto wStSubmitted (fun _ => .enoent) "subm" "p2").2 = .ok ()
      ∧ lookupSession (removePhoto wStSubmitted (fun _ => .enoent) "subm" "p2").1.db.sessions
          "subm" = none) :=
  ⟨⟨by decide, rfl, rfl, rfl⟩,
    ⟨((no_zero_photo_session_retained wStSubmitted).1 (fun _ => .enoent) "subm" "p2"
        wSubmittedSession wPhoto2 (by decide) rfl rfl rfl).1,
      ((no_zero_photo_session_retained wStSubmitted).1 (fun _ => .enoent) "subm" "p2"
        wSubmittedSession wPhoto2 (by decide) rfl rfl rfl).2.1⟩⟩

/-! ## `GET /sessions` lemmas (C5) -/

theorem jsSlice_eq_drop_take (l : List α) (s c : Int) (hs : 0 ≤ s) (hc : 0 ≤ c) :
    jsSlice l (some s) (some (s + c)) = (l.drop s.toNat).take c.toNat := by
  simp only [jsSlice, sliceIdx]
  rw [if_neg (not_lt.mpr hs), if_neg (not_lt.mpr (by omega : (0 : Int) ≤ s + c))]
  by_cases hlen : s.toNat ≤ l.length
  · rw [min_eq_left hlen, List.drop_take, List.take_eq_take]
    have h1 : (l.drop s.toNat).length = l.length - s.toNat := List.length_drop _ _
    have h2 : (s + c).toNat = s.toNat + c.toNat := by omega
    rw [h1, h2]
    omega
  · push_neg at hlen
    rw [min_eq_right (le_of_lt hlen)]
    rw [List.drop_eq_nil_of_le (by simp),
      List.drop_eq_nil_of_le (le_of_lt hlen), List.take_nil]

theorem jsSlice_none (l : List α) : jsSlice l none none = [] := by
  cases l <;> rfl

theorem mem_applyStatusFilter_status {stv : String} {l : List SessionSummary}
    {x : SessionSummary} (h : x ∈ applyStatusFilter (some stv) l)
    (h1 : stv ≠ "") (h2 : stv ≠ "all") : x.status = stv := by
  simp only [applyStatusFilter, h1, h2] at h
  have := (List.mem_filter.mp h).2
  simpa using this

theorem mem_applySearchFilter_matches {q : String} {l : List SessionSummary}
    {x : SessionSummary} (h : x ∈ applySearchFilter (some q) l) (hq : q ≠ "") :
    matchesSearch q x = true := by
  simp only [applySearchFilter, hq] at h
  exact (List.mem_filter.mp h).2

theorem applyStatusFilter_mem_of_mem_applySearchFilter {search : Option String}
    {l : List SessionSummary} {x : SessionSummary}
    (h : x ∈ applySearchFilter search l) : x ∈ l :=
  mem_of_mem_applySearchFilter h

/-- **C5, counterexample.**  The claim says an invalid `page` defaults
to `page = 1`, and that the status filter is an exact match for every
value other than `'all'` (or absent).  On the one-session database
`wDb`: a non-numeric `page` makes `parseInt` return `NaN`, the slice
indices become `NaN`, and `slice(NaN, NaN)` is empty — so the session
list comes back empty instead of defaulting (the default request
returns the session); and `status=""` is falsy, so the filter is
skipped and the session is returned even though no session has the
empty status. -/
theorem listSessions_invalid_page_cex :
    (listSessions wDb none none (some "abc") none).sessions = []
    ∧ (listSessions wDb none none none none).sessions =
        [{ id := "sess", customerName := "Alice", status := "ready", photoCount := 2,
           createdAt := 5 }]
    ∧ (listSessions wDb (some "") none none none).sessions =
        [{ id := "sess", customerName := "Alice", status := "ready", photoCount := 2,
           createdAt := 5 }] :=
  ⟨rfl, rfl, rfl⟩

/-- **C5 (amended).**  `GET /sessions` filters by exact status match
(skipped when `status` is absent, the empty string, or `'all'`), then
by case-insensitive substring search over id OR customerName, sorts by
`createdAt` descending, then paginates.  Missing `page`/`limit`
default to 1 and 10; a `page` or `limit` that `parseInt` cannot parse
yields an empty slice (it does not default); an out-of-range page
yields an empty slice, not an error; the reported total is the
filtered count. -/
theorem listSessions_behavior (db : Db) (status search page limit : Option String) :
    ((listSessions db status search page limit).total =
      (applySearchFilter search (applyStatusFilter status (sessionSummaries db))).length)
    ∧ (∀ x ∈ (listSessions db status search page limit).sessions,
        x ∈ sessionSummaries db
        ∧ (∀ stv, status = some stv → stv ≠ "" → stv ≠ "all" → x.status = stv)
        ∧ (∀ q, search = some q → q ≠ "" → matchesSearch q x = true))
    ∧ (listSessions db status search page limit).sessions.Pairwise byCreatedAtDesc
    ∧ (∀ pv lv : Int, parsedPage page = some pv → parsedLimit limit = some lv →
        1 ≤ pv → 0 ≤ lv →
        (listSessions db status search page limit).sessions =
          ((sortByCreatedAtDesc (applySearchFilter search (applyStatusFilter status
            (sessionSummaries db)))).drop ((pv - 1) * lv).toNat).take lv.toNat)
    ∧ (page = none → limit = none →
        (listSessions db status search page limit).sessions =
          (sortByCreatedAtDesc (applySearchFilter search (applyStatusFilter status
            (sessionSummaries db)))).take 10)
    ∧ (∀ pv lv : Int, parsedPage page = some pv → parsedLimit limit = some lv →
        1 ≤ pv → 0 ≤ lv →
        (sortByCreatedAtDesc (applySearchFilter search (applyStatusFilter status
          (sessionSummaries db)))).length ≤ ((pv - 1) * lv).toNat →
        (listSessions db status search page limit).sessions = [])
    ∧ ((parsedPage page = none ∨ parsedLimit limit = none) →
        (listSessions db status search page limit).sessions = []) := by
  have hpag : ∀ pv lv : Int, parsedPage page = some pv → parsedLimit limit = some lv →
      1 ≤ pv → 0 ≤ lv →
      (listSessions db status search page limit).sessions =
        ((sortByCreatedAtDesc (applySearchFilter search (applyStatusFilter status
          (sessionSummaries db)))).drop ((pv - 1) * lv).toNat).take lv.toNat := by
    intro pv lv hp hl hp1 hl0
    simp only [listSessions, hp, hl]
    exact jsSlice_eq_drop_take _ ((pv - 1) * lv) lv
      (mul_nonneg (by omega) hl0) hl0
  refine ⟨rfl, ?_, ?_, hpag, ?_, ?_, ?_⟩
  · intro x hx
    have h1 := mem_of_mem_listSessions hx
    refine ⟨h1, ?_, ?_⟩
    · rintro stv rfl hne hall
      have h2 : x ∈ applyStatusFilter (some stv) (sessionSummaries db) := by
        simp only [listSessions] at hx
        have := mem_of_mem_jsSlice hx
        rw [sortByCreatedAtDesc, List.mem_insertionSort] at this
        exact mem_of_mem_applySearchFilter this
      exact mem_applyStatusFilter_status h2 hne hall
    · rintro q rfl hq
      have h2 : x ∈ applySearchFilter (some q)
          (applyStatusFilter status (sessionSummaries db)) := by
        simp only [listSessions] at hx
        have := mem_of_mem_jsSlice hx
        rw [sortByCreatedAtDesc, List.mem_insertionSort] at this
        exact this
      exact mem_applySearchFilter_matches h2 hq
  · simp only [listSessions]
    unfold jsSlice
    refine List.Pairwise.sublist
      ((List.drop_sublist _ _).trans (List.take_sublist _ _)) ?_
    exact List.sorted_insertionSort byCreatedAtDesc _
  · rintro rfl rfl
    have h := hpag 1 10 rfl rfl (by omega) (by omega)
    simpa using h
  · intro pv lv hp hl hp1 hl0 hout
    rw [hpag pv lv hp hl hp1 hl0]
    rw [List.drop_eq_nil_of_le hout, List.take_nil]
  · intro hnan
    rcases hnan with hp | hl
    · simp only [listSessions, hp]
      exact jsSlice_none _
    · cases hp : parsedPage page with
      | none =>
        simp only [listSessions, hp]
        exact jsSlice_none _
      | some pv =>
        simp only [listSessions, hp, hl]
        exact jsSlice_none _

/-- **C5 witness.** -/
theorem listSessions_behavior_witness :
    (parsedPage (some "2") = some 2 ∧ parsedLimit (some "10") = some 10
      ∧ (1 : Int) ≤ 2 ∧ (0 : Int) ≤ 10)
    ∧ (listSessions wDb none none (some "2") (some "10")).sessions =
        ((sortByCreatedAtDesc (applySearchFilter none (applyStatusFilter none
          (sessionSummaries wDb)))).drop (((2 : Int) - 1) * 10).toNat).take
          ((10 : Int)).toNat :=
  ⟨⟨rfl, rfl, by omega, by omega⟩,
    (listSessions_behavior wDb none none (some "2") (some "10")).2.2.2.1 2 10
      rfl rfl (by omega) (by omega)⟩

end PhotoSel
